import Mathlib

/-!
Shallow embedding of the tube_recap repository (src/yt_summary.py) in Lean 4,
with theorems settling the frozen claims about its specification.

Conventions of the embedding:
* Python machine integers are modeled as Int or Nat (Python ints are unbounded).
* Subtitle timestamps are modeled as exact rationals; the code computes them
  with Python floats, whose values on the inputs appearing in the claims are
  exact, so the rational model agrees with the code there.
* Filesystem contents, network responses and subprocess outcomes are passed in
  explicitly as data (the cache files for a video id, the transcript-API
  listing, the outcome of a caption-tool attempt, the AI responses).
* Functions that the code performs as side effects (network calls, subprocess
  invocations, AI calls, index saves) are made visible as counters or snapshot
  lists in the return values.
-/

namespace TubeRecap

/-- One timed transcript segment, as produced by every acquisition path
(fields start, duration, text of the dicts built in fetch_transcript and
_fetch_transcript_ytdlp). -/
structure Segment where
  start : ℚ
  duration : ℚ
  text : String
deriving DecidableEq, Repr

/-- Python str.strip character class (ASCII whitespace as used by the code). -/
def isPySpace (c : Char) : Bool :=
  c == ' ' || c == '\t' || c == '\n' || c == '\r' || c == '\x0b' || c == '\x0c'

/-- Python str.strip on a character list. -/
def pyStrip (cs : List Char) : List Char :=
  ((cs.dropWhile isPySpace).reverse.dropWhile isPySpace).reverse

/-- Python str.strip on a string. -/
def pyStripStr (s : String) : String := String.mk (pyStrip s.toList)

/-- Python str.startswith on character lists (pattern first). -/
def listStartsWith : List Char → List Char → Bool
  | [], _ => true
  | _ :: _, [] => false
  | p :: ps, c :: cs => p == c && listStartsWith ps cs

/-- Python substring containment (pattern in line). -/
def containsSub (pat : List Char) : List Char → Bool
  | [] => listStartsWith pat []
  | c :: cs => listStartsWith pat (c :: cs) || containsSub pat cs

/-- Python str.split on a single separator character (keeps empty pieces). -/
def splitOnChar (sep : Char) : List Char → List (List Char)
  | [] => [[]]
  | c :: cs =>
    let r := splitOnChar sep cs
    if c == sep then [] :: r
    else
      match r with
      | [] => [[c]]
      | h :: t => (c :: h) :: t

/-- Python sep.join on character lists. -/
def joinWith (sep : List Char) : List (List Char) → List Char
  | [] => []
  | [x] => x
  | x :: y :: rest => x ++ sep ++ joinWith sep (y :: rest)

/-! ## Regex substitutions used on subtitle text

The code strips delimited runs with re.sub: angle tags with a nonempty
inside (pattern: open angle, one or more non-close chars, close angle),
style braces likewise, and square-bracket tags with a possibly empty inside
whose dot cannot cross a newline. All three are instances of one scanner:
from each opening delimiter, drop up to the first closing delimiter
(subject to the nonempty-inside and no-newline constraints), else keep the
opener and move on. Fuel-driven so the kernel can evaluate it; each step
consumes at least one character, so length-plus-one fuel always suffices. -/

/-- The opening style-brace character (written numerically). -/
def lbraceChar : Char := Char.ofNat 123

/-- The closing style-brace character (written numerically). -/
def rbraceChar : Char := Char.ofNat 125

/-- One re.sub pass removing delimited runs, as described above.
noNl: the inside may not contain a newline (dot semantics);
needOne: the inside must be nonempty (plus quantifier). -/
def removeDelimRuns (op cl : Char) (noNl needOne : Bool) : Nat → List Char → List Char
  | 0, cs => cs
  | _, [] => []
  | fuel + 1, c :: cs =>
    if c == op then
      let keep : Char → Bool := fun x => !(x == cl) && (!noNl || !(x == '\n'))
      let inside := cs.takeWhile keep
      match cs.dropWhile keep with
      | x :: rest2 =>
        if x == cl && !(needOne && inside.isEmpty) then
          removeDelimRuns op cl noNl needOne fuel rest2
        else c :: removeDelimRuns op cl noNl needOne fuel cs
      | [] => c :: removeDelimRuns op cl noNl needOne fuel cs
    else c :: removeDelimRuns op cl noNl needOne fuel cs

/-- re.sub removing HTML-like angle tags (nonempty inside). -/
def removeAngle (cs : List Char) : List Char :=
  removeDelimRuns '<' '>' false true (cs.length + 1) cs

/-- re.sub removing style-brace runs (nonempty inside). -/
def removeBrace (cs : List Char) : List Char :=
  removeDelimRuns lbraceChar rbraceChar false true (cs.length + 1) cs

/-- re.sub removing square-bracket tags (non-greedy dot: empty inside is
allowed, and the inside may not contain a newline). -/
def removeSquare (cs : List Char) : List Char :=
  removeDelimRuns '[' ']' true false (cs.length + 1) cs

/-- The clean-tags transform applied to segment text when enabled:
square-bracket removal followed by strip. -/
def pyCleanTags (s : String) : String :=
  String.mk (pyStrip (removeSquare s.toList))

/-! ## _chunk_text (yt_summary.py lines 671-684)

The while loop is modeled with explicit fuel: a fuel-exhausted run returns
none, meaning the loop was still running after that many iterations. The
start cursor is a Python int (it can only stay nonnegative when
chunk_size > overlap, but the model keeps full Int slicing semantics). -/

/-- Python slice text[a:b] on a character list, with negative-index
clamping semantics. -/
def pySlice (text : List Char) (a b : Int) : List Char :=
  let n : Int := text.length
  let s := if a < 0 then max (n + a) 0 else min a n
  let e := if b < 0 then max (n + b) 0 else min b n
  (text.drop s.toNat).take (e - s).toNat

/-- The while loop of _chunk_text: while start < len(text), take
text[start : min(start+chunk_size, len)] and advance start by
chunk_size - overlap. none = the loop had not finished within fuel
iterations. -/
def chunkLoop (chunkSize overlap : Int) (text : List Char) : Nat → Int → Option (List (List Char))
  | 0, start => if start < (text.length : Int) then none else some []
  | fuel + 1, start =>
    if start < (text.length : Int) then
      let e := min (start + chunkSize) (text.length : Int)
      (chunkLoop chunkSize overlap text fuel (start + (chunkSize - overlap))).map
        (fun rest => pySlice text start e :: rest)
    else some []

/-- Model of _chunk_text with the canonical fuel: one iteration per character plus
one. When chunk_size > overlap the cursor advances by at least one per
iteration, so this fuel is always sufficient and none is returned exactly
when the Python loop never terminates. -/
def chunkText (chunkSize overlap : Int) (text : List Char) : Option (List (List Char)) :=
  chunkLoop chunkSize overlap text (text.length + 1) 0

/-! ## WebVTT decoding (the .vtt branch of _fetch_transcript_ytdlp,
yt_summary.py lines 544-604) -/

/-- Numeric value of an ASCII digit. -/
def digitVal (c : Char) : Nat := c.toNat - 48

/-- time_to_seconds: H*3600 + M*60 + S where the seconds part carries the
millisecond fraction, computed exactly in the rational model. -/
def vttSeconds (h m s ms : Nat) : ℚ :=
  (h : ℚ) * 3600 + (m : ℚ) * 60 + ((s : ℚ) + (ms : ℚ) / 1000)

/-- The timestamp regex fragment: two digits, colon, two digits, colon, two
digits, dot or comma, three digits; returns the converted seconds and the
unconsumed tail. (The code first replaces a comma by a dot, then converts.) -/
def parseTimestamp : List Char → Option (ℚ × List Char)
  | h1 :: h2 :: c1 :: m1 :: m2 :: c2 :: s1 :: s2 :: d :: f1 :: f2 :: f3 :: rest =>
    if h1.isDigit && h2.isDigit && c1 == ':' && m1.isDigit && m2.isDigit && c2 == ':'
        && s1.isDigit && s2.isDigit && (d == '.' || d == ',') && f1.isDigit && f2.isDigit
        && f3.isDigit then
      some (vttSeconds (10 * digitVal h1 + digitVal h2) (10 * digitVal m1 + digitVal m2)
              (10 * digitVal s1 + digitVal s2)
              (100 * digitVal f1 + 10 * digitVal f2 + digitVal f3), rest)
    else none
  | _ => none

/-- The anchored cue-timestamp regex: timestamp, optional whitespace, the
arrow, optional whitespace, timestamp; trailing characters are ignored. -/
def parseCueLine (cs : List Char) : Option (ℚ × ℚ) :=
  match parseTimestamp cs with
  | none => none
  | some (t1, rest) =>
    match rest.dropWhile isPySpace with
    | '-' :: '-' :: '>' :: rest2 =>
      match parseTimestamp (rest2.dropWhile isPySpace) with
      | none => none
      | some (t2, _) => some (t1, t2)
    | _ => none

/-- A line that continues a cue text block: nonblank and not itself a cue
line (the while condition of the inner collection loop). -/
def cueTextLine (l : List Char) : Bool :=
  !(pyStrip l).isEmpty && !containsSub " --> ".toList l

/-- The line scan of the VTT parser. Fuel counts processed lines (each step
consumes at least one line, so lines-plus-one fuel always suffices). -/
def vttLoop (cleanTags : Bool) : Nat → List (List Char) → List Segment
  | 0, _ => []
  | _, [] => []
  | fuel + 1, line :: rest =>
    if listStartsWith "WEBVTT".toList line || (pyStrip line).isEmpty
        || listStartsWith "NOTE".toList line then
      vttLoop cleanTags fuel rest
    else if containsSub " --> ".toList line then
      match parseCueLine (pyStrip line) with
      | none => vttLoop cleanTags fuel rest
      | some (startSec, endSec) =>
        let textLines := rest.takeWhile cueTextLine
        let rest2 := rest.dropWhile cueTextLine
        let t0 := joinWith [' '] (textLines.map pyStrip)
        let t1 := removeBrace (removeAngle t0)
        let t2 := if cleanTags then pyStrip (removeSquare t1) else t1
        let t3 := pyStrip t2
        if t3.isEmpty then vttLoop cleanTags fuel rest2
        else ⟨startSec, endSec - startSec, String.mk t3⟩ :: vttLoop cleanTags fuel rest2
    else vttLoop cleanTags fuel rest

/-- The VTT branch of _fetch_transcript_ytdlp: split the file content on
newlines and scan. -/
def vttDecode (cleanTags : Bool) (content : String) : List Segment :=
  let lines := splitOnChar '\n' content.toList
  vttLoop cleanTags (lines.length + 1) lines

/-! ## fetch_transcript (yt_summary.py lines 289-428)

The environment of one call is passed explicitly: the contents of the two
transcript cache files for the video id (none = the file does not exist),
the outcome of the transcript-API listing, and the outcome a
_fetch_transcript_ytdlp attempt would have (none = that attempt fails; the
1-2 subprocess invocations inside one attempt are abstracted into the
attempt). The result records the network calls to the transcript API and
the number of caption-tool attempts, plus what was written to the cache
files (none = nothing written). The language read from the index record is
passed as indexLang. Per-track fetch outcomes are carried by the tracks
themselves (fetchOk false models transcript.fetch raising, which the
final generic except handler turns into a terminal none). -/

/-- One transcript track as listed by the transcript API: its language
code, whether it is auto-generated, whether requesting a translation
succeeds, whether fetching it succeeds, and the segments obtained by
fetching it directly or after translation to Japanese. -/
structure Track where
  lang : String
  isGenerated : Bool
  translatable : Bool
  fetchOk : Bool
  segs : List Segment
  translatedSegs : List Segment
deriving Repr

/-- Outcome of api.list(video_id): a track list, or one of the exceptions
the code distinguishes (TranscriptsDisabled, NoTranscriptFound, IpBlocked,
or any other exception). -/
inductive ApiListing where
  | ok (tracks : List Track)
  | disabled
  | notFound
  | ipBlocked
  | listFails
deriving Repr

/-- The per-run configuration consumed by fetch_transcript: the force
toggle, the use-ytdlp toggle, the parsed ordered language preferences, and
the clean-tags toggle. -/
structure Config where
  force : Bool
  useYtdlp : Bool
  languages : List String
  cleanTags : Bool
deriving Repr

/-- Per-video environment of fetch_transcript. -/
structure FetchData where
  cacheJson : Option (List Segment)
  cacheTxt : Option String
  api : ApiListing
  ytdlp : Option (List Segment × String × String)
deriving Repr

/-- Result of fetch_transcript with its observable side effects. -/
structure FetchResult where
  result : Option (List Segment × String × String)
  apiCalls : Nat
  ytdlpAttempts : Nat
  savedJson : Option (List Segment)
  savedTxt : Option String
deriving Repr

/-- The language returned on a cache hit: the previously recorded index
language, or unknown when there is no record or the recorded language is
empty (Python or-falsiness on the empty string). -/
def cachedLang (indexLang : Option String) : String :=
  let l := indexLang.getD ""
  if l = "" then "unknown" else l

/-- find_manually_created_transcript / find_generated_transcript with a
singleton language list: the first track of the requested kind whose
language code matches. -/
def findLangTrack (gen : Bool) (tracks : List Track) (l : String) : Option Track :=
  tracks.find? fun t => t.isGenerated == gen && t.lang == l

/-- Track selection of fetch_transcript (lines 323-356): the manual loop
over the preference tags, then the generated loop, then the
translate-the-first-track fallback labeled ja (translated). Returns the
segments that fetching the selected track yields, the selected language
label, and whether the fetch succeeds. -/
def selectTranscript (languages : List String) (tracks : List Track) :
    Option (List Segment × String × Bool) :=
  match languages.findSome?
      (fun l => (findLangTrack false tracks l).map fun t => (t.segs, l, t.fetchOk)) with
  | some sel => some sel
  | none =>
    match languages.findSome?
        (fun l => (findLangTrack true tracks l).map fun t => (t.segs, l, t.fetchOk)) with
    | some sel => some sel
    | none =>
      match tracks with
      | [] => none
      | t :: _ =>
        if t.translatable then some (t.translatedSegs, "ja (translated)", t.fetchOk) else none

/-- The selection policy as the specification words it, step by step:
(a) a manually authored track matching a preference tag, tried tag by tag
in caller order; (b) an auto-generated track matching a tag, same
order; (c) as last resort the first available track of any language
translated into Japanese and labeled ja (translated); otherwise no track. -/
def specTrackSelection (prefs : List String) (tracks : List Track) :
    Option (List Segment × String × Bool) :=
  let manualPick := prefs.findSome? fun tag =>
    (tracks.find? fun t => t.isGenerated == false && t.lang == tag).map fun t =>
      (t.segs, tag, t.fetchOk)
  let autoPick := prefs.findSome? fun tag =>
    (tracks.find? fun t => t.isGenerated == true && t.lang == tag).map fun t =>
      (t.segs, tag, t.fetchOk)
  let translatedPick := tracks.head?.bind fun t =>
    if t.translatable then some (t.translatedSegs, "ja (translated)", t.fetchOk) else none
  (manualPick.orElse fun _ => autoPick).orElse fun _ => translatedPick

/-- Per-segment processing of the API path (lines 372-394): optional
clean-tags bracket removal and strip. -/
def processSegments (cleanTags : Bool) (segs : List Segment) : List Segment :=
  segs.map fun s => { s with text := if cleanTags then pyCleanTags s.text else s.text }

/-- full_text: the single-space join of the processed segment texts. -/
def joinedText (segs : List Segment) : String :=
  String.mk (joinWith [' '] (segs.map fun s => s.text.toList))

/-- The primary-API part of fetch_transcript plus its exception handlers
(lines 312-428). priorYt counts caption-tool attempts already made before
the API was consulted (the use-ytdlp-first branch). -/
def fetchViaApi (cfg : Config) (fd : FetchData) (priorYt : Nat) : FetchResult :=
  match fd.api with
  | .ok tracks =>
    match selectTranscript cfg.languages tracks with
    | none =>
      { result := none, apiCalls := 1, ytdlpAttempts := priorYt,
        savedJson := none, savedTxt := none }
    | some (rawSegs, lang, fetchOk) =>
      if fetchOk then
        let processed := processSegments cfg.cleanTags rawSegs
        let fullText := joinedText processed
        { result := some (processed, fullText, lang), apiCalls := 2, ytdlpAttempts := priorYt,
          savedJson := some processed, savedTxt := some fullText }
      else
        { result := none, apiCalls := 2, ytdlpAttempts := priorYt,
          savedJson := none, savedTxt := none }
  | .listFails =>
    { result := none, apiCalls := 1, ytdlpAttempts := priorYt,
      savedJson := none, savedTxt := none }
  | .disabled =>
    if cfg.useYtdlp then
      { result := none, apiCalls := 1, ytdlpAttempts := priorYt,
        savedJson := none, savedTxt := none }
    else
      match fd.ytdlp with
      | some r =>
        { result := some r, apiCalls := 1, ytdlpAttempts := priorYt + 1,
          savedJson := some r.1, savedTxt := some r.2.1 }
      | none =>
        { result := none, apiCalls := 1, ytdlpAttempts := priorYt + 1,
          savedJson := none, savedTxt := none }
  | .notFound =>
    if cfg.useYtdlp then
      { result := none, apiCalls := 1, ytdlpAttempts := priorYt,
        savedJson := none, savedTxt := none }
    else
      match fd.ytdlp with
      | some r =>
        { result := some r, apiCalls := 1, ytdlpAttempts := priorYt + 1,
          savedJson := some r.1, savedTxt := some r.2.1 }
      | none =>
        { result := none, apiCalls := 1, ytdlpAttempts := priorYt + 1,
          savedJson := none, savedTxt := none }
  | .ipBlocked =>
    match fd.ytdlp with
    | some r =>
      { result := some r, apiCalls := 1, ytdlpAttempts := priorYt + 1,
        savedJson := some r.1, savedTxt := some r.2.1 }
    | none =>
      { result := none, apiCalls := 1, ytdlpAttempts := priorYt + 1,
        savedJson := none, savedTxt := none }

/-- fetch_transcript after the cache check: the use-ytdlp-first branch
(lines 307-310), then the API path. A caption-tool success writes the two
cache files with exactly what it returns. -/
def fetchFresh (cfg : Config) (fd : FetchData) : FetchResult :=
  if cfg.useYtdlp then
    match fd.ytdlp with
    | some r =>
      { result := some r, apiCalls := 0, ytdlpAttempts := 1,
        savedJson := some r.1, savedTxt := some r.2.1 }
    | none => fetchViaApi cfg fd 1
  else fetchViaApi cfg fd 0

/-- fetch_transcript: the cache check (lines 293-304) followed by the
fresh acquisition paths. -/
def fetchTranscript (cfg : Config) (fd : FetchData) (indexLang : Option String) : FetchResult :=
  match fd.cacheJson, fd.cacheTxt, cfg.force with
  | some segs, some txt, false =>
    { result := some (segs, txt, cachedLang indexLang), apiCalls := 0, ytdlpAttempts := 0,
      savedJson := none, savedTxt := none }
  | _, _, _ => fetchFresh cfg fd

/-! ## generate_summary (yt_summary.py lines 632-765)

The AI collaborator is abstracted behind two oracles: mapAi gives the
response of the per-chunk map call (argument: chunk position and chunk
text; none = the call failed after its retries), and finalAi gives the
parsed JSON object of the final structured call (argument: whether the
reduced-context prompt framing is used, and the content placed in the
prompt; none = the call failed or its response was not valid JSON). The
prompt templates themselves are pure string formatting around these
arguments and carry no information the claims depend on. -/

/-- Input metadata for one video (the metadata dict built by the input
enumerators always carries these three keys). -/
structure Meta where
  title : String
  url : String
  publishedAt : String
deriving Repr, DecidableEq

/-- The parsed JSON object of a final summary response, with the dict-get
defaults already applied. -/
structure SummaryJson where
  summary : String
  highlights : List String
  newInsights : List String
  notableQuotes : List (String × String)
deriving Repr, DecidableEq

/-- The SummaryResult dataclass. -/
structure SummaryResult where
  videoId : String
  title : String
  url : String
  publishedAt : String
  language : String
  summary : String
  highlights : List String
  newInsights : List String
  notableQuotes : List (String × String)
  tokensEstimate : Nat
deriving Repr, DecidableEq

/-- Configuration consumed by generate_summary. -/
structure SumCfg where
  force : Bool
  chunkChars : Int
  chunkOverlap : Int
deriving Repr

/-- Per-video environment of generate_summary: the two summary cache
files (the structured one modeled by the record it deserializes to) and
the AI oracles. -/
structure SumData where
  cacheJson : Option SummaryResult
  cacheMd : Option String
  mapAi : Nat → String → Option String
  finalAi : Bool → String → Option SummaryJson

/-- Result of generate_summary with its observable side effects. -/
structure SumOut where
  result : Option SummaryResult
  aiCalls : Nat
  savedJson : Option SummaryResult
deriving Repr

/-- Model of _generate_final_summary (lines 717-765): issue the structured call and
build the record; the stored token estimate is the length of title plus
prompt content, integer-divided by two. -/
def generateFinalSummary (sd : SumData) (indexLang : Option String) (vid content : String)
    (m : Meta) (isReduced : Bool) : Option SummaryResult :=
  (sd.finalAi isReduced content).map fun data =>
    { videoId := vid, title := m.title, url := m.url, publishedAt := m.publishedAt,
      language := indexLang.getD "",
      summary := data.summary,
      highlights := data.highlights.take 10,
      newInsights := data.newInsights.take 5,
      notableQuotes := data.notableQuotes.take 3,
      tokensEstimate := (m.title ++ content).length / 2 }

/-- Chunk enumeration of the map phase. -/
def enumChunks (chunks : List String) : List (Nat × String) :=
  (List.range chunks.length).zip chunks

/-- generate_summary past the cache check: strategy selection, map-reduce
or direct, each ending in _generate_final_summary. The outer none means
the call never returns (the chunking loop of a degenerate configuration
never terminates). aiCalls counts _call_ai invocations. -/
def generateSummaryFresh (scfg : SumCfg) (sd : SumData) (indexLang : Option String)
    (vid text : String) (m : Meta) : Option SumOut :=
  if (text.length : Int) > scfg.chunkChars * 2 then
    match chunkText scfg.chunkChars scfg.chunkOverlap text.toList with
    | none => none
    | some chunkLists =>
      let chunks := chunkLists.map String.mk
      let chunkSummaries := (enumChunks chunks).filterMap fun p => sd.mapAi p.1 p.2
      if chunkSummaries.isEmpty then some ⟨none, chunks.length, none⟩
      else
        let combined := String.intercalate "\n" chunkSummaries
        match generateFinalSummary sd indexLang vid combined m true with
        | some s => some ⟨some s, chunks.length + 1, some s⟩
        | none => some ⟨none, chunks.length + 1, none⟩
  else
    match generateFinalSummary sd indexLang vid text m false with
    | some s => some ⟨some s, 1, some s⟩
    | none => some ⟨none, 1, none⟩

/-- generate_summary: the cache check (lines 636-643) followed by the
fresh summarization. On a cache hit the deserialized record is returned
with no AI call and nothing written. -/
def generateSummary (scfg : SumCfg) (sd : SumData) (indexLang : Option String)
    (vid text : String) (m : Meta) : Option SumOut :=
  match sd.cacheJson, sd.cacheMd, scfg.force with
  | some cached, some _, false => some ⟨some cached, 0, none⟩
  | _, _, _ => generateSummaryFresh scfg sd indexLang vid text m

/-! ## The index and the batch loop (run, yt_summary.py lines 865-929) -/

/-- The VideoInfo dataclass (the integer fields are Python ints). -/
structure VideoInfo where
  videoId : String
  title : String
  url : String
  publishedAt : String
  language : String
  transcriptChars : Int
  tokensEstimate : Int
  status : String
  error : String
deriving Repr, DecidableEq

/-- The in-memory index: an insertion-ordered mapping from video id to
record (Python dict semantics). -/
abbrev Index := List (String × VideoInfo)

/-- Dict lookup. -/
def idxLookup : Index → String → Option VideoInfo
  | [], _ => none
  | p :: rest, vid => if p.1 == vid then some p.2 else idxLookup rest vid

/-- Dict assignment: replace in place, or append a new entry. -/
def idxSet : Index → String → VideoInfo → Index
  | [], vid, r => [(vid, r)]
  | p :: rest, vid, r => if p.1 == vid then (vid, r) :: rest else p :: idxSet rest vid r

/-- The record created on first sight of a video id (lines 879-885). -/
def freshRecord (vid : String) (m : Meta) : VideoInfo :=
  ⟨vid, m.title, m.url, m.publishedAt, "", 0, 0, "PENDING", ""⟩

/-- The metadata refresh applied to the record (lines 890-895; Python
truthiness: only nonempty strings overwrite). -/
def applyMeta (m : Meta) (r : VideoInfo) : VideoInfo :=
  { r with
    title := if m.title ≠ "" then m.title else r.title,
    publishedAt := if m.publishedAt ≠ "" then m.publishedAt else r.publishedAt,
    url := if m.url ≠ "" then m.url else r.url }

/-- Per-item environment of the batch loop: the fetch environment, the
summary environment, and two oracles modeling an exception escaping the
fetch stage or the summary stage into the per-item except handler (some
msg = that stage raises with that message). -/
structure ItemEnv where
  fetchRaise : Option String
  fetch : FetchData
  sumRaise : Option String
  sum : SumData

/-- One iteration of the batch loop (lines 877-927): ensure the record
exists, refresh its metadata, fetch the transcript, summarize, and produce
the record this iteration stores plus the observed work counters
(API calls, caption-tool attempts, AI calls). none = the iteration never
returns (divergent chunking inside generate_summary). -/
def processItem (cfg : Config) (scfg : SumCfg) (ie : ItemEnv) (idx : Index) (vid : String)
    (m : Meta) : Option (VideoInfo × Nat × Nat × Nat) :=
  let r1 := applyMeta m ((idxLookup idx vid).getD (freshRecord vid m))
  match ie.fetchRaise with
  | some msg => some ({ r1 with status := "ERROR", error := msg }, 0, 0, 0)
  | none =>
    let fr := fetchTranscript cfg ie.fetch (some r1.language)
    match fr.result with
    | none =>
      some ({ r1 with status := "TRANSCRIPT_UNAVAILABLE", error := "Failed to fetch transcript" },
        fr.apiCalls, fr.ytdlpAttempts, 0)
    | some (_segs, text, lang) =>
      let r2 := { r1 with language := lang, transcriptChars := (text.length : Int) }
      match ie.sumRaise with
      | some msg => some ({ r2 with status := "ERROR", error := msg }, fr.apiCalls, fr.ytdlpAttempts, 0)
      | none =>
        match generateSummary scfg ie.sum (some r2.language) vid text m with
        | none => none
        | some sr =>
          match sr.result with
          | some s =>
            let done := { r2 with tokensEstimate := (s.tokensEstimate : Int),
                                  status := "COMPLETED", error := "" }
            some (done, fr.apiCalls, fr.ytdlpAttempts, sr.aiCalls)
          | none =>
            some ({ r2 with status := "SUMMARY_FAILED", error := "Failed to generate summary" },
              fr.apiCalls, fr.ytdlpAttempts, sr.aiCalls)

/-- What the loop persists after one item: the id processed, the full
index snapshot written by _save_index, and the work counters of the
iteration. -/
structure BatchStep where
  vid : String
  save : Index
  apiCalls : Nat
  ytdlpAttempts : Nat
  aiCalls : Nat
deriving Repr, DecidableEq

/-- The batch loop of run: process the items in order; after every item
(success or failure) _save_index persists the full index. none = some
iteration never returned. -/
def runBatch (cfg : Config) (scfg : SumCfg) (env : String → ItemEnv) :
    List (String × Meta) → Index → Option (List BatchStep × Index)
  | [], idx => some ([], idx)
  | (vid, m) :: rest, idx =>
    match processItem cfg scfg (env vid) idx vid m with
    | none => none
    | some (rec, a, y, ai) =>
      let idx' := idxSet idx vid rec
      match runBatch cfg scfg env rest idx' with
      | none => none
      | some (steps, fin) => some (⟨vid, idx', a, y, ai⟩ :: steps, fin)

/-- The dry-run classification (lines 939-945): EXISTS when the id has an
index record and force is unset, NEW otherwise; the record status is not
consulted. -/
def dryRunStatus (idx : Index) (force : Bool) (vid : String) : String :=
  if (idxLookup idx vid).isSome && !force then "EXISTS" else "NEW"

/-! ## _load_index (yt_summary.py lines 116-135)

A CSV row from csv.DictReader is modeled as an association list from
column name to cell, where a cell of none models the Python value None
(a short row). A missing column name models a file without that column.
Cells that the code uses as strings are modeled as strings directly
(a None in such a cell would flow into the string field unchanged, which
no claim distinguishes from the empty default); the two cells passed to
int() keep the full behavior because that call is where the load can
raise. -/

/-- Lookup of a column in a row. -/
def assocLookup : List (String × Option String) → String → Option (Option String)
  | [], _ => none
  | p :: rest, k => if p.1 == k then some p.2 else assocLookup rest k

/-- Digits to number. -/
def digitsToNat (cs : List Char) : Nat :=
  cs.foldl (fun acc c => 10 * acc + digitVal c) 0

/-- Python int() applied to a string: optional surrounding whitespace, an
optional sign, then one or more digits; anything else raises ValueError. -/
def parsePyInt (s : String) : Option Int :=
  let cs := pyStrip s.toList
  match cs with
  | [] => none
  | c :: rest =>
    if c == '-' then
      if !rest.isEmpty && rest.all Char.isDigit then some (-(digitsToNat rest : Int)) else none
    else if c == '+' then
      if !rest.isEmpty && rest.all Char.isDigit then some (digitsToNat rest : Int) else none
    else if cs.all Char.isDigit then some (digitsToNat cs : Int)
    else none

/-- row.get(k, default) for a string-valued column (absent column or a
None cell both yield the default-or-empty string the record field ends up
holding). -/
def rowGetStr (row : List (String × Option String)) (k dflt : String) : String :=
  match assocLookup row k with
  | none => dflt
  | some none => ""
  | some (some s) => s

/-- int(row.get(k, 0)): absent column gives the integer default, a None
cell raises TypeError, a non-numeric string raises ValueError. -/
def rowGetInt (row : List (String × Option String)) (k : String) : Except String Int :=
  match assocLookup row k with
  | none => .ok 0
  | some none => .error "TypeError"
  | some (some s) =>
    match parsePyInt s with
    | some n => .ok n
    | none => .error "ValueError"

/-- One row of _load_index turned into a record (lines 123-134);
row of video_id raises KeyError when the column is absent. -/
def loadIndexRow (row : List (String × Option String)) : Except String (String × VideoInfo) := do
  let vid ←
    match assocLookup row "video_id" with
    | none => Except.error "KeyError"
    | some c => Except.ok (c.getD "")
  let tc ← rowGetInt row "transcript_chars"
  let te ← rowGetInt row "tokens_estimate"
  Except.ok (vid,
    { videoId := vid, title := rowGetStr row "title" "", url := rowGetStr row "url" "",
      publishedAt := rowGetStr row "published_at" "", language := rowGetStr row "lang" "",
      transcriptChars := tc, tokensEstimate := te,
      status := rowGetStr row "summary_status" "PENDING", error := rowGetStr row "error" "" })

/-- The row loop of _load_index accumulating into the dict. -/
def loadIndexAux : Index → List (List (String × Option String)) → Except String Index
  | idx, [] => .ok idx
  | idx, row :: rest =>
    match loadIndexRow row with
    | .error e => .error e
    | .ok (v, r) => loadIndexAux (idxSet idx v r) rest

/-- Model of _load_index over the parsed rows of the index file: an error value
models the uncaught exception propagating out of the load. -/
def loadIndex (rows : List (List (String × Option String))) : Except String Index :=
  loadIndexAux [] rows

/-- Well-formedness of a row under which the load cannot raise: the id
column is present and both numeric cells convert. -/
def wfRow (row : List (String × Option String)) : Bool :=
  (assocLookup row "video_id").isSome
    && (rowGetInt row "transcript_chars").toBool && (rowGetInt row "tokens_estimate").toBool

/-! ## _rate_limit (yt_summary.py lines 158-163)

The tool object holds one last_request_time field, initialized to zero and
read and written by every _rate_limit call, whichever request family
(feed fetch, transcript fetch, AI call) triggers it. The clock is
idealized: sleep advances the current time by exactly the requested
amount, and time.time() after the sleep reads that advanced time. -/

/-- The mutable state _rate_limit touches: the current clock reading and
the shared last_request_time field. -/
structure LimiterState where
  now : ℚ
  last : ℚ
deriving Repr, DecidableEq

/-- Model of _rate_limit: if less than the minimum interval elapsed since the last
request, sleep for the remainder; then stamp the current time. -/
def rateLimit (interval : ℚ) (st : LimiterState) : LimiterState :=
  let elapsed := st.now - st.last
  if elapsed < interval then
    let n := st.now + (interval - elapsed)
    ⟨n, n⟩
  else ⟨st.now, st.now⟩

/-- The _rate_limit call issued on the transcript-fetch path (line 312):
it operates on the single shared limiter state. -/
def transcriptGate : ℚ → LimiterState → LimiterState := rateLimit

/-- The _rate_limit call issued on the AI-call path (line 769): it
operates on the same single shared limiter state. -/
def aiGate : ℚ → LimiterState → LimiterState := rateLimit

/-! ## Helper lemmas -/

/-- Both branches of _rate_limit stamp the current time. -/
lemma rateLimit_last_eq_now (i : ℚ) (st : LimiterState) :
    (rateLimit i st).last = (rateLimit i st).now := by
  by_cases h : st.now - st.last < i <;> simp [rateLimit, h]

/-- Two consecutive passes through the shared gate leave stamps at least
the minimum interval apart, whatever time passes in between. -/
lemma rateLimit_spacing (i d : ℚ) (hi : 0 ≤ i) (hd : 0 ≤ d) (st : LimiterState) :
    i ≤ (rateLimit i ⟨(rateLimit i st).now + d, (rateLimit i st).last⟩).last
        - (rateLimit i st).last := by
  set a := rateLimit i st with ha
  have hl : a.last = a.now := rateLimit_last_eq_now i st
  by_cases h2 : (a.now + d) - a.last < i
  · have hstep : rateLimit i ⟨a.now + d, a.last⟩
        = ⟨(a.now + d) + (i - ((a.now + d) - a.last)),
            (a.now + d) + (i - ((a.now + d) - a.last))⟩ := by
      simp [rateLimit, h2]
    rw [hstep]
    dsimp only
    linarith
  · have hstep : rateLimit i ⟨a.now + d, a.last⟩ = ⟨a.now + d, a.now + d⟩ := by
      simp [rateLimit, h2]
    rw [hstep]
    dsimp only
    linarith [not_lt.mp h2]

/-- With a step that cannot advance the cursor, the chunking loop runs
forever: no amount of fuel finishes it. -/
lemma chunkLoop_stuck (cs o : Int) (h : cs ≤ o) (text : List Char) :
    ∀ (fuel : Nat) (start : Int), start < (text.length : Int) →
      chunkLoop cs o text fuel start = none := by
  intro fuel
  induction fuel with
  | zero => intro start hs; simp [chunkLoop, hs]
  | succ n ih =>
    intro start hs
    have hs' : start + (cs - o) < (text.length : Int) := by omega
    simp [chunkLoop, hs, ih _ hs']

/-- With a positive step, enough fuel finishes the loop, and the produced
windows sit at the arithmetic-progression offsets. -/
lemma chunkLoop_spec (cs o : Int) (h : o < cs) (text : List Char) :
    ∀ (fuel : Nat) (start : Int), (text.length : Int) ≤ start + fuel * (cs - o) →
      ∃ l, chunkLoop cs o text fuel start = some l ∧
        ∀ i (hi : i < l.length),
          l.get ⟨i, hi⟩
            = pySlice text (start + (i : Int) * (cs - o))
                (min (start + (i : Int) * (cs - o) + cs) (text.length : Int)) := by
  intro fuel
  induction fuel with
  | zero =>
    intro start hbound
    have hs : ¬ start < (text.length : Int) := by omega
    exact ⟨[], by simp [chunkLoop, hs], by intro i hi; simp at hi⟩
  | succ n ih =>
    intro start hbound
    by_cases hs : start < (text.length : Int)
    · have hstep : ((n : Int) + 1) * (cs - o) = (cs - o) + (n : Int) * (cs - o) := by ring
      have hbound' : (text.length : Int) ≤ (start + (cs - o)) + n * (cs - o) := by
        push_cast at hbound
        linarith [hbound, hstep]
      obtain ⟨l, hl, hspec⟩ := ih (start + (cs - o)) hbound'
      refine ⟨pySlice text start (min (start + cs) (text.length : Int)) :: l, ?_, ?_⟩
      · simp [chunkLoop, hs, hl]
      · intro i hi
        match i with
        | 0 => simp
        | Nat.succ j =>
          have hj : j < l.length := by simpa using hi
          have := hspec j hj
          have harith : start + (cs - o) + (j : Int) * (cs - o)
              = start + ((j : Int) + 1) * (cs - o) := by ring
          simp only [List.get]
          rw [this, harith]
          push_cast
          ring_nf
    · exact ⟨[], by simp [chunkLoop, hs], by intro i hi; simp at hi⟩

/-- The canonical fuel of chunkText is sufficient when the step is
positive. -/
lemma chunkText_some (cs o : Int) (h : o < cs) (text : List Char) :
    ∃ l, chunkText cs o text = some l ∧
      ∀ i (hi : i < l.length),
        l.get ⟨i, hi⟩
          = pySlice text ((i : Int) * (cs - o))
              (min ((i : Int) * (cs - o) + cs) (text.length : Int)) := by
  have hstep : (1 : Int) ≤ cs - o := by omega
  have hfuel : (text.length : Int) ≤ 0 + ((text.length + 1 : Nat) : Int) * (cs - o) := by
    have hpos : (0 : Int) ≤ ((text.length : Int) + 1) := by positivity
    have := mul_le_mul_of_nonneg_left hstep hpos
    push_cast
    linarith
  obtain ⟨l, hl, hspec⟩ := chunkLoop_spec cs o h text (text.length + 1) 0 hfuel
  refine ⟨l, hl, ?_⟩
  intro i hi
  have := hspec i hi
  simpa using this

/-- Window length bound for the slices chunkText produces. -/
lemma pySlice_length_le (text : List Char) (a c : Int) (ha : 0 ≤ a) (hc : 0 ≤ c) :
    (pySlice text a (min (a + c) (text.length : Int))).length ≤ c.toNat := by
  unfold pySlice
  dsimp only
  have hn : (0 : Int) ≤ (text.length : Int) := by positivity
  have ha' : ¬ a < 0 := by omega
  have hb : ¬ (min (a + c) (text.length : Int)) < 0 := by
    simp only [not_lt, le_min_iff]
    omega
  rw [if_neg ha', if_neg hb]
  simp only [List.length_take, List.length_drop]
  omega

/-- Rows passing the well-formedness check convert without an error. -/
lemma wfRow_loadIndexRow {row : List (String × Option String)} (h : wfRow row = true) :
    ∃ p, loadIndexRow row = .ok p := by
  unfold wfRow at h
  simp only [Bool.and_eq_true] at h
  obtain ⟨⟨h1, h2⟩, h3⟩ := h
  unfold loadIndexRow
  cases hv : assocLookup row "video_id" with
  | none => rw [hv] at h1; simp at h1
  | some c =>
    cases ht : rowGetInt row "transcript_chars" with
    | error e => rw [ht] at h2; simp [Except.toBool] at h2
    | ok tc =>
      cases hk : rowGetInt row "tokens_estimate" with
      | error e => rw [hk] at h3; simp [Except.toBool] at h3
      | ok te =>
        exact ⟨_, rfl⟩

/-- The whole load succeeds when every row is well-formed. -/
lemma loadIndexAux_ok :
    ∀ (rows : List (List (String × Option String))) (idx : Index),
      (∀ row ∈ rows, wfRow row = true) → ∃ out, loadIndexAux idx rows = .ok out := by
  intro rows
  induction rows with
  | nil => intro idx _; exact ⟨idx, rfl⟩
  | cons row rest ih =>
    intro idx h
    obtain ⟨p, hp⟩ := wfRow_loadIndexRow (h row (by simp))
    obtain ⟨out, hout⟩ := ih (idxSet idx p.1 p.2) (fun r hr => h r (by simp [hr]))
    exact ⟨out, by simp [loadIndexAux, hp, hout]⟩

/-- A first (cache-missing or forced) fetch never takes the cache branch. -/
lemma fetchTranscript_fresh (cfg : Config) (fd : FetchData) (il : Option String)
    (hc : fd.cacheJson = none ∨ fd.cacheTxt = none ∨ cfg.force = true) :
    fetchTranscript cfg fd il = fetchFresh cfg fd := by
  unfold fetchTranscript
  cases hj : fd.cacheJson <;> cases hm : fd.cacheTxt <;> cases hf : cfg.force <;>
    first
      | rfl
      | (exfalso; rcases hc with h | h | h <;> simp_all)

/-- Every successful fresh acquisition writes exactly the returned
segments and text to the two cache files. -/
lemma fetchFresh_saves (cfg : Config) (fd : FetchData) (s : List Segment) (t lang : String)
    (h : (fetchFresh cfg fd).result = some (s, t, lang)) :
    (fetchFresh cfg fd).savedJson = some s ∧ (fetchFresh cfg fd).savedTxt = some t := by
  obtain ⟨cj, ct, api, yt⟩ := fd
  unfold fetchFresh at h ⊢
  cases hu : cfg.useYtdlp <;> simp only [hu, Bool.false_eq_true, if_false, if_true] at h ⊢
  case false =>
    unfold fetchViaApi at h ⊢
    cases api <;> simp_all
    case ok tracks =>
      cases hsel : selectTranscript cfg.languages tracks with
      | none => simp [hsel] at h
      | some sel =>
        obtain ⟨rsegs, rlang, rok⟩ := sel
        cases rok <;> simp_all
        rw [← h.1]
        exact h.2.1
    case disabled => cases yt <;> simp_all
    case notFound => cases yt <;> simp_all
    case ipBlocked => cases yt <;> simp_all
  case true =>
    cases yt with
    | some r => simp_all
    | none =>
      unfold fetchViaApi at h ⊢
      cases api <;> simp_all
      case ok tracks =>
        cases hsel : selectTranscript cfg.languages tracks with
        | none => simp [hsel] at h
        | some sel =>
          obtain ⟨rsegs, rlang, rok⟩ := sel
          cases rok <;> simp_all
          rw [← h.1]
          exact h.2.1

/-- The loop-shaped selection of the code equals the prioritized
three-step policy the specification describes. -/
lemma selectTranscript_eq_spec (prefs : List String) (tracks : List Track) :
    selectTranscript prefs tracks = specTrackSelection prefs tracks := by
  unfold selectTranscript specTrackSelection findLangTrack
  cases h1 : prefs.findSome? fun l =>
      (tracks.find? fun t => t.isGenerated == false && t.lang == l).map fun t =>
        (t.segs, l, t.fetchOk) with
  | some sel => simp [Option.orElse]
  | none =>
    cases h2 : prefs.findSome? fun l =>
        (tracks.find? fun t => t.isGenerated == true && t.lang == l).map fun t =>
          (t.segs, l, t.fetchOk) with
    | some sel => simp [Option.orElse]
    | none =>
      cases tracks <;> simp [Option.orElse]

/-! ## Claim theorems -/

/-- Claim C9 (confirmed): WebVTT decoding recognizes a cue by a line with
an arrow timestamp range, joins the following text lines with spaces until
the next blank or cue line, strips HTML-like tags and style braces,
converts timestamps to seconds by the hours-minutes-seconds formula with
duration equal to end minus start, and discards cues whose text strips to
empty. Shown on the specified concrete input (one segment at start 1.0,
duration 1.5, text Hello world), on an input where a cue consisting only
of tags is discarded while a multi-line cue with nonzero hours and
minutes is joined with spaces, and on an input exercising the style-brace
stripping. -/
theorem c9_vtt_decode :
    vttDecode false "00:00:01.000 --> 00:00:02.500\nHello <i>world</i>\n"
      = [⟨vttSeconds 0 0 1 0, vttSeconds 0 0 2 500 - vttSeconds 0 0 1 0, "Hello world"⟩]
    ∧ vttSeconds 0 0 1 0 = 1
    ∧ vttSeconds 0 0 2 500 - vttSeconds 0 0 1 0 = 3 / 2
    ∧ vttDecode false
        "WEBVTT\n\n00:00:01.000 --> 00:00:02.500\n<b></b>\n\n01:02:03.250 --> 01:02:04.750\nfoo\nbar\n"
      = [⟨vttSeconds 1 2 3 250, vttSeconds 1 2 4 750 - vttSeconds 1 2 3 250, "foo bar"⟩]
    ∧ vttSeconds 1 2 3 250 = 3723 + 1 / 4
    ∧ vttSeconds 1 2 4 750 - vttSeconds 1 2 3 250 = 3 / 2
    ∧ vttDecode false "00:00:00.000 --> 00:00:01.000\na\x7bi\x7db\n"
      = [⟨vttSeconds 0 0 0 0, vttSeconds 0 0 1 0 - vttSeconds 0 0 0 0, "ab"⟩] :=
  ⟨rfl, by norm_num [vttSeconds], by norm_num [vttSeconds], rfl,
    by norm_num [vttSeconds], by norm_num [vttSeconds], rfl⟩

/-- Claim C6 counterexample: the transcript-fetch and AI-call request
families share the single last_request_time field, so issuing a request
in one family does advance and consume the gate of the other. Concretely,
at interval 1 an AI call at time 100 with no prior request of any kind
does not sleep, but after a transcript fetch at time 100 the same AI call
sleeps until 101 — the transcript request consumed the AI gate. -/
theorem c6_shared_gate_counterexample :
    aiGate 1 ⟨100, 0⟩ = ⟨100, 100⟩
    ∧ transcriptGate 1 ⟨100, 0⟩ = ⟨100, 100⟩
    ∧ aiGate 1 (transcriptGate 1 ⟨100, 0⟩) = ⟨101, 101⟩
    ∧ (101 : ℚ) ≠ 100 := by
  refine ⟨?_, ?_, ?_, by norm_num⟩ <;> norm_num [aiGate, transcriptGate, rateLimit]

/-- Claim C6 (corrected): there is one rate-limiter timestamp per tool
instance, shared by every throttled request family, not one per family.
The shared gate still enforces the per-request spacing: the two gate
functions are the same function on the same state; a request arriving
before the minimum interval elapsed sleeps for the remainder and then
stamps the current time, one arriving later stamps immediately; and any
two consecutive throttled requests (of any families) are spaced at least
the minimum interval apart. -/
theorem c6_limiter_amended (i d : ℚ) (st : LimiterState) (hi : 0 ≤ i) (hd : 0 ≤ d) :
    transcriptGate i st = aiGate i st
    ∧ (st.now - st.last < i →
        rateLimit i st
          = ⟨st.now + (i - (st.now - st.last)), st.now + (i - (st.now - st.last))⟩)
    ∧ (i ≤ st.now - st.last → rateLimit i st = ⟨st.now, st.now⟩)
    ∧ i ≤ (rateLimit i ⟨(rateLimit i st).now + d, (rateLimit i st).last⟩).last
          - (rateLimit i st).last := by
  refine ⟨rfl, ?_, ?_, rateLimit_spacing i d hi hd st⟩
  · intro h
    simp [rateLimit, h]
  · intro h
    simp [rateLimit, not_lt.mpr h]

/-- Claim C6 witness: the amended limiter properties at interval 1, gap 0,
initial state zero. -/
theorem c6_limiter_amended_witness :
    (0 : ℚ) ≤ 1 ∧ (0 : ℚ) ≤ 0
    ∧ (transcriptGate 1 ⟨0, 0⟩ = aiGate 1 ⟨0, 0⟩
      ∧ ((0 : ℚ) - 0 < 1 →
          rateLimit 1 ⟨0, 0⟩ = ⟨0 + (1 - ((0 : ℚ) - 0)), 0 + (1 - ((0 : ℚ) - 0))⟩)
      ∧ ((1 : ℚ) ≤ (0 : ℚ) - 0 → rateLimit 1 ⟨0, 0⟩ = ⟨0, 0⟩)
      ∧ (1 : ℚ) ≤ (rateLimit 1 ⟨(rateLimit 1 ⟨0, 0⟩).now + 0,
            (rateLimit 1 ⟨0, 0⟩).last⟩).last - (rateLimit 1 ⟨0, 0⟩).last) :=
  ⟨by norm_num, le_refl 0, c6_limiter_amended 1 0 ⟨0, 0⟩ (by norm_num) (le_refl 0)⟩

/-- Claim C7 counterexample: the chunking loop does not terminate for
every configuration. With chunk_chars 3 and overlap 3 on a 3-character
text the cursor never advances, so no amount of fuel finishes the loop. -/
theorem c7_nontermination_counterexample :
    ¬ ∃ fuel r, chunkLoop 3 3 "abc".toList fuel 0 = some r := by
  rintro ⟨fuel, r, hr⟩
  rw [chunkLoop_stuck 3 3 (le_refl 3) "abc".toList fuel 0 (by decide)] at hr
  exact Option.noConfusion hr

/-- Claim C7 (corrected): termination holds for the configurations with
overlap below chunk size, not for every configuration. For every text and
every configuration with overlap < chunk_chars the loop terminates within
length-plus-one iterations and produces the window at offset
i·(chunk_chars − overlap) as its i-th chunk, each window at most
chunk_chars characters whenever the overlap is nonnegative (a negative
overlap makes the window end a Python negative slice index, which can
reach past chunk_chars characters); and on the specified 25-character
example with chunk_chars 10 and overlap 3 the windows start at offsets
0, 7, 14, 21 and cover the whole string. -/
theorem c7_chunking_amended (chunkSize overlap : Int) (text : List Char)
    (h : overlap < chunkSize) :
    (∃ chunks, chunkText chunkSize overlap text = some chunks
      ∧ ∀ i (hi : i < chunks.length),
          chunks.get ⟨i, hi⟩
              = pySlice text ((i : Int) * (chunkSize - overlap))
                  (min ((i : Int) * (chunkSize - overlap) + chunkSize) (text.length : Int))
            ∧ (0 ≤ overlap → (chunks.get ⟨i, hi⟩).length ≤ chunkSize.toNat))
    ∧ chunkText 10 3 "abcdefghijklmnopqrstuvwxy".toList
        = some ["abcdefghij".toList, "hijklmnopq".toList, "opqrstuvwx".toList, "vwxy".toList]
    ∧ "abcdefghijklmnopqrstuvwxy".toList.length = 25 := by
  refine ⟨?_, by decide, by decide⟩
  obtain ⟨l, hl, hspec⟩ := chunkText_some chunkSize overlap h text
  refine ⟨l, hl, ?_⟩
  intro i hi
  refine ⟨hspec i hi, ?_⟩
  intro h0
  rw [hspec i hi]
  exact pySlice_length_le text ((i : Int) * (chunkSize - overlap)) chunkSize
    (mul_nonneg (by positivity) (by omega)) (by omega)

/-- Claim C7 witness: the amended chunking property at chunk size 10,
overlap 3, on the 25-character example string. -/
theorem c7_chunking_amended_witness :
    (3 : Int) < 10
    ∧ ∃ chunks, chunkText 10 3 "abcdefghijklmnopqrstuvwxy".toList = some chunks ∧
        chunks.length = 4 :=
  ⟨by norm_num, by
    obtain ⟨⟨chunks, hc, _⟩, _, _⟩ :=
      c7_chunking_amended 10 3 "abcdefghijklmnopqrstuvwxy".toList (by norm_num)
    refine ⟨chunks, hc, ?_⟩
    have : chunkText 10 3 "abcdefghijklmnopqrstuvwxy".toList
        = some ["abcdefghij".toList, "hijklmnopq".toList, "opqrstuvwx".toList, "vwxy".toList] := by
      decide
    rw [this] at hc
    cases hc
    rfl⟩

/-- Claim C8 counterexample: loading is not raise-free. A row whose
transcript_chars cell holds a non-numeric string makes the int conversion
raise, and the load propagates the error instead of skipping or
defaulting the row. -/
theorem c8_load_raises_counterexample :
    loadIndex [[("video_id", some "v1"), ("transcript_chars", some "abc")]]
      = Except.error "ValueError"
    ∧ loadIndex [[("video_id", some "v1"), ("transcript_chars", none)]]
      = Except.error "TypeError" := ⟨rfl, rfl⟩

/-- Claim C8 (corrected): the load reads the tabular file and defaults
absent columns to empty, zero or PENDING, and returns a mapping — but
only when every row is well-formed (id column present, numeric cells
numeric); a malformed numeric cell raises out of the load instead of
being skipped or defaulted. -/
theorem c8_load_amended (rows : List (List (String × Option String)))
    (h : ∀ row ∈ rows, wfRow row = true) :
    (∃ idx, loadIndex rows = .ok idx)
    ∧ ∀ v : String, loadIndexRow [("video_id", some v)]
        = .ok (v, ⟨v, "", "", "", "", 0, 0, "PENDING", ""⟩) :=
  ⟨loadIndexAux_ok rows [] h, fun _ => rfl⟩

/-- Claim C8 witness: the amended load property on a concrete two-row
file with all columns present. -/
theorem c8_load_amended_witness :
    (∀ row ∈ [[("video_id", some "v1"), ("transcript_chars", some "12")],
        [("video_id", some "v2"), ("tokens_estimate", some "7")]], wfRow row = true)
    ∧ ∃ idx, loadIndex [[("video_id", some "v1"), ("transcript_chars", some "12")],
        [("video_id", some "v2"), ("tokens_estimate", some "7")]] = .ok idx :=
  ⟨by decide,
    (c8_load_amended [[("video_id", some "v1"), ("transcript_chars", some "12")],
      [("video_id", some "v2"), ("tokens_estimate", some "7")]] (by decide)).1⟩

/-- Setting a key makes it present with the stored record. -/
lemma idxLookup_idxSet_self (idx : Index) (v : String) (r : VideoInfo) :
    idxLookup (idxSet idx v r) v = some r := by
  induction idx with
  | nil => simp [idxSet, idxLookup]
  | cons p rest ih =>
    by_cases h : p.1 == v
    · simp [idxSet, h, idxLookup]
    · simp [idxSet, h, idxLookup, ih]

/-- The fresh summarization always returns when the chunk step is
positive. -/
lemma generateSummaryFresh_total (scfg : SumCfg) (sd : SumData) (il : Option String)
    (vid text : String) (m : Meta) (h : scfg.chunkOverlap < scfg.chunkChars) :
    ∃ out, generateSummaryFresh scfg sd il vid text m = some out := by
  unfold generateSummaryFresh
  by_cases hlen : (text.length : Int) > scfg.chunkChars * 2
  · rw [if_pos hlen]
    obtain ⟨l, hl, _⟩ := chunkText_some scfg.chunkChars scfg.chunkOverlap h text.toList
    rw [hl]
    simp only []
    split
    · exact ⟨_, rfl⟩
    · split <;> exact ⟨_, rfl⟩
  · rw [if_neg hlen]
    split <;> exact ⟨_, rfl⟩

/-- generate_summary always returns when the chunk step is positive. -/
lemma generateSummary_total (scfg : SumCfg) (sd : SumData) (il : Option String)
    (vid text : String) (m : Meta) (h : scfg.chunkOverlap < scfg.chunkChars) :
    ∃ out, generateSummary scfg sd il vid text m = some out := by
  unfold generateSummary
  split
  · exact ⟨_, rfl⟩
  · exact generateSummaryFresh_total scfg sd il vid text m h

/-- One batch iteration always returns when the chunk step is positive. -/
lemma processItem_total (cfg : Config) (scfg : SumCfg) (ie : ItemEnv) (idx : Index)
    (vid : String) (m : Meta) (h : scfg.chunkOverlap < scfg.chunkChars) :
    ∃ out, processItem cfg scfg ie idx vid m = some out := by
  unfold processItem
  cases hfr : ie.fetchRaise with
  | some msg => exact ⟨_, rfl⟩
  | none =>
    simp only []
    cases hres : (fetchTranscript cfg ie.fetch
        (some (applyMeta m ((idxLookup idx vid).getD (freshRecord vid m))).language)).result with
    | none => exact ⟨_, rfl⟩
    | some res =>
      obtain ⟨segs, text, lang⟩ := res
      simp only []
      cases hsr : ie.sumRaise with
      | some msg => exact ⟨_, rfl⟩
      | none =>
        obtain ⟨out, hout⟩ := generateSummary_total scfg ie.sum
          (some lang) vid text m h
        rw [hout]
        simp only []
        cases hout2 : out.result with
        | some s => exact ⟨_, rfl⟩
        | none => exact ⟨_, rfl⟩

/-- What one iteration stores when an exception escapes a stage: the
fetch-stage oracle always yields an ERROR record with the message; the
summary-stage oracle yields it whenever the summary stage was reached
(the alternative being that the fetch already failed terminally). -/
lemma processItem_spec (cfg : Config) (scfg : SumCfg) (ie : ItemEnv) (idx : Index)
    (vid : String) (m : Meta) (out : VideoInfo × Nat × Nat × Nat)
    (hout : processItem cfg scfg ie idx vid m = some out) :
    (∀ msg, ie.fetchRaise = some msg → out.1.status = "ERROR" ∧ out.1.error = msg)
    ∧ (∀ msg, ie.fetchRaise = none → ie.sumRaise = some msg →
        (out.1.status = "ERROR" ∧ out.1.error = msg)
        ∨ out.1.status = "TRANSCRIPT_UNAVAILABLE") := by
  unfold processItem at hout
  constructor
  · intro msg hm
    rw [hm] at hout
    simp only [] at hout
    cases hout
    exact ⟨rfl, rfl⟩
  · intro msg hf hm
    rw [hf] at hout
    simp only [] at hout
    cases hres : (fetchTranscript cfg ie.fetch
        (some (applyMeta m ((idxLookup idx vid).getD (freshRecord vid m))).language)).result with
    | none =>
      rw [hres] at hout
      simp only [] at hout
      cases hout
      exact Or.inr rfl
    | some res =>
      obtain ⟨segs, text, lang⟩ := res
      rw [hres, hm] at hout
      simp only [] at hout
      cases hout
      exact Or.inl ⟨rfl, rfl⟩

/-- With both transcript artifacts and both summary artifacts cached and
force unset, one iteration performs zero API calls, zero caption-tool
attempts and zero AI calls — whatever the index record for the id says. -/
lemma processItem_cached (cfg : Config) (scfg : SumCfg) (ie : ItemEnv) (idx : Index)
    (vid : String) (m : Meta)
    (hforce : cfg.force = false) (hsforce : scfg.force = false)
    (h1 : ie.fetch.cacheJson.isSome = true) (h2 : ie.fetch.cacheTxt.isSome = true)
    (h3 : ie.sum.cacheJson.isSome = true) (h4 : ie.sum.cacheMd.isSome = true) :
    ∃ rec, processItem cfg scfg ie idx vid m = some (rec, 0, 0, 0) := by
  obtain ⟨segs, hsegs⟩ := Option.isSome_iff_exists.mp h1
  obtain ⟨txt, htxt⟩ := Option.isSome_iff_exists.mp h2
  obtain ⟨sumr, hsumr⟩ := Option.isSome_iff_exists.mp h3
  obtain ⟨md, hmd⟩ := Option.isSome_iff_exists.mp h4
  have hfetch : ∀ ilang, fetchTranscript cfg ie.fetch ilang
      = ⟨some (segs, txt, cachedLang ilang), 0, 0, none, none⟩ := by
    intro ilang
    unfold fetchTranscript
    rw [hsegs, htxt, hforce]
  have hsum : ∀ il2 text2, generateSummary scfg ie.sum il2 vid text2 m
      = some ⟨some sumr, 0, none⟩ := by
    intro il2 text2
    unfold generateSummary
    rw [hsumr, hmd, hsforce]
  unfold processItem
  cases hfr : ie.fetchRaise with
  | some msg => exact ⟨_, rfl⟩
  | none =>
    simp only []
    rw [hfetch]
    simp only []
    cases hsr : ie.sumRaise with
    | some msg => exact ⟨_, rfl⟩
    | none =>
      rw [hsum]
      simp only []
      exact ⟨_, rfl⟩

/-- The batch loop, fully characterized: it returns, persists one full
index snapshot per item, and the i-th snapshot is exactly the index after
the first i+1 items, with the i-th stored record and counters coming from
that same iteration. -/
lemma runBatch_spec (cfg : Config) (scfg : SumCfg) (env : String → ItemEnv)
    (hchunk : scfg.chunkOverlap < scfg.chunkChars) :
    ∀ (items : List (String × Meta)) (idx0 : Index),
      ∃ steps fin, runBatch cfg scfg env items idx0 = some (steps, fin)
        ∧ steps.length = items.length
        ∧ ∀ i vid m, items.get? i = some (vid, m) →
            ∃ st idxB out,
              steps.get? i = some st
              ∧ processItem cfg scfg (env vid) idxB vid m = some out
              ∧ st.vid = vid
              ∧ st.save = idxSet idxB vid out.1
              ∧ st.apiCalls = out.2.1 ∧ st.ytdlpAttempts = out.2.2.1 ∧ st.aiCalls = out.2.2.2
              ∧ runBatch cfg scfg env (items.take (i + 1)) idx0
                  = some (steps.take (i + 1), st.save) := by
  intro items
  induction items with
  | nil =>
    intro idx0
    exact ⟨[], idx0, rfl, rfl, by intro i vid m h; simp [List.get?] at h⟩
  | cons item rest ih =>
    intro idx0
    obtain ⟨vid, m⟩ := item
    obtain ⟨out, hout⟩ := processItem_total cfg scfg (env vid) idx0 vid m hchunk
    obtain ⟨steps, fin, hrun, hlen, hspec⟩ := ih (idxSet idx0 vid out.1)
    refine ⟨⟨vid, idxSet idx0 vid out.1, out.2.1, out.2.2.1, out.2.2.2⟩ :: steps, fin,
      ?_, by simp [hlen], ?_⟩
    · simp [runBatch, hout, hrun]
    · intro i vid2 m2 hi
      cases i with
      | zero =>
        simp only [List.get?] at hi
        cases hi
        refine ⟨_, idx0, out, rfl, hout, rfl, rfl, rfl, rfl, rfl, ?_⟩
        simp [runBatch, hout]
      | succ j =>
        simp only [List.get?] at hi
        obtain ⟨st, idxB, out2, hA, hB, hC, hD, hE, hF, hG, hH⟩ := hspec j vid2 m2 hi
        refine ⟨st, idxB, out2, by simpa using hA, hB, hC, hD, hE, hF, hG, ?_⟩
        simp only [List.take]
        simp [runBatch, hout, hH]

/-- Claim C10 counterexample: the token estimate stored in a freshly
produced SummaryRecord is not the character count of the summarized full
text divided by two. With title of length 2 and a direct-path text of
length 4 the stored estimate is (2+4)/2 = 3, while the claim predicts
4/2 = 2. -/
theorem c10_token_estimate_counterexample :
    ((generateSummary ⟨false, 6000, 300⟩
        ⟨none, none, fun _ _ => none, fun _ _ => some ⟨"s", [], [], []⟩⟩
        (some "ja") "vid01" "wxyz" ⟨"ab", "u", "p"⟩).map
      fun out => out.result.map fun r => r.tokensEstimate) = some (some 3)
    ∧ "wxyz".length / 2 = 2
    ∧ (3 : Nat) ≠ 2 := ⟨rfl, rfl, by decide⟩

/-- Claim C10 (corrected): for a fresh (non-cache) summarization the
stored token estimate is the length of the video title concatenated with
the content placed in the final prompt, integer-divided by two — the
full text on the direct path, the newline-joined per-chunk summaries on
the map-reduce path — not the length of the full text alone. -/
theorem c10_token_estimate_amended
    (scfg : SumCfg) (sd : SumData) (il : Option String) (vid text : String) (m : Meta)
    (r : SumOut) (s : SummaryResult)
    (hnc : sd.cacheJson = none ∨ sd.cacheMd = none ∨ scfg.force = true)
    (hr : generateSummary scfg sd il vid text m = some r)
    (hs : r.result = some s) :
    ((text.length : Int) ≤ scfg.chunkChars * 2
      ∧ s.tokensEstimate = (m.title ++ text).length / 2)
    ∨ ((text.length : Int) > scfg.chunkChars * 2
      ∧ ∃ chunkLists,
          chunkText scfg.chunkChars scfg.chunkOverlap text.toList = some chunkLists
          ∧ s.tokensEstimate = (m.title ++ String.intercalate "\n"
              ((enumChunks (chunkLists.map String.mk)).filterMap
                fun p => sd.mapAi p.1 p.2)).length / 2) := by
  have hfresh : generateSummary scfg sd il vid text m
      = generateSummaryFresh scfg sd il vid text m := by
    unfold generateSummary
    cases hj : sd.cacheJson <;> cases hm : sd.cacheMd <;> cases hf : scfg.force <;>
      first
        | rfl
        | (exfalso; rcases hnc with h | h | h <;> simp_all)
  rw [hfresh] at hr
  unfold generateSummaryFresh at hr
  by_cases hlen : (text.length : Int) > scfg.chunkChars * 2
  · right
    rw [if_pos hlen] at hr
    refine ⟨hlen, ?_⟩
    cases hct : chunkText scfg.chunkChars scfg.chunkOverlap text.toList with
    | none => rw [hct] at hr; exact absurd hr (by simp)
    | some chunkLists =>
      rw [hct] at hr
      simp only [] at hr
      refine ⟨chunkLists, rfl, ?_⟩
      by_cases hempty : ((enumChunks (chunkLists.map String.mk)).filterMap
          fun p => sd.mapAi p.1 p.2).isEmpty
      · rw [if_pos hempty] at hr
        cases hr
        simp at hs
      · rw [if_neg hempty] at hr
        cases hfa : generateFinalSummary sd il vid
            (String.intercalate "\n"
              ((enumChunks (chunkLists.map String.mk)).filterMap fun p => sd.mapAi p.1 p.2))
            m true with
        | none => rw [hfa] at hr; cases hr; simp at hs
        | some s2 =>
          rw [hfa] at hr
          cases hr
          simp only [] at hs
          obtain ⟨data, _hd, hmap⟩ := Option.map_eq_some'.mp hfa
          cases hs
          rw [← hmap]
  · left
    rw [if_neg hlen] at hr
    refine ⟨by omega, ?_⟩
    cases hfa : generateFinalSummary sd il vid text m false with
    | none => rw [hfa] at hr; cases hr; simp at hs
    | some s2 =>
      rw [hfa] at hr
      cases hr
      obtain ⟨data, _hd, hmap⟩ := Option.map_eq_some'.mp hfa
      cases hs
      rw [← hmap]

/-- The concrete record the C10 witness summarization produces. -/
def c10rec : SummaryResult := ⟨"v", "xy", "", "", "", "t", [], [], [], 3⟩

/-- Claim C10 witness: the amended token-estimate property at a concrete
direct-path summarization (title xy, text abcd, stored estimate 3). -/
theorem c10_token_estimate_amended_witness :
    ((("abcd".length : Int) ≤ (6000 : Int) * 2
        ∧ c10rec.tokensEstimate = ("xy" ++ "abcd").length / 2)
      ∨ (("abcd".length : Int) > (6000 : Int) * 2
        ∧ ∃ chunkLists, chunkText 6000 300 "abcd".toList = some chunkLists
            ∧ c10rec.tokensEstimate = ("xy" ++ String.intercalate "\n"
                ((enumChunks (chunkLists.map String.mk)).filterMap
                  fun p => (fun _ _ => (none : Option String)) p.1 p.2)).length / 2)) :=
  c10_token_estimate_amended ⟨false, 6000, 300⟩
    ⟨none, none, fun _ _ => none, fun _ _ => some ⟨"t", [], [], []⟩⟩ none "v" "abcd"
    ⟨"xy", "", ""⟩ ⟨some c10rec, 1, some c10rec⟩ c10rec (Or.inl rfl) rfl rfl

/-- Claim C2 counterexample: a primary failure of the no-suitable-track
kind does not trigger the caption-tool fallback. With an empty track list
the in-band no-suitable-transcript error reaches the generic handler,
which returns a terminal failure with zero caption-tool attempts, even
though the tool outcome for this video is a success (as the second
conjunct shows: with the tool configured primary, the very same
environment produces the tool result). -/
theorem c2_no_fallback_counterexample :
    fetchTranscript ⟨false, false, ["ja"], false⟩
        ⟨none, none, .ok [], some ([⟨0, 1, "hi"⟩], "hi", "ja")⟩ none
      = ⟨none, 1, 0, none, none⟩
    ∧ fetchFresh ⟨false, true, ["ja"], false⟩
        ⟨none, none, .ok [], some ([⟨0, 1, "hi"⟩], "hi", "ja")⟩
      = ⟨some ([⟨0, 1, "hi"⟩], "hi", "ja"), 0, 1, some [⟨0, 1, "hi"⟩], some "hi"⟩ :=
  ⟨rfl, rfl⟩

/-- Claim C2 (corrected): the caption-tool fallback is attempted on
transcripts-disabled, no-transcript-found (when the tool is not already
configured primary) and IP-blocked failures of the primary source, and a
successful fallback result is returned verbatim with no terminal error; a
no-suitable-track failure, however, bypasses the fallback and surfaces as
a terminal failure. -/
theorem c2_fallback_amended (cfg : Config) (fd : FetchData) (il : Option String)
    (r : List Segment × String × String)
    (hc : fd.cacheJson = none ∨ fd.cacheTxt = none ∨ cfg.force = true)
    (hyt : cfg.useYtdlp = false)
    (hfail : fd.api = .disabled ∨ fd.api = .notFound ∨ fd.api = .ipBlocked)
    (htool : fd.ytdlp = some r) :
    (fetchTranscript cfg fd il).result = some r
    ∧ 1 ≤ (fetchTranscript cfg fd il).ytdlpAttempts := by
  rw [fetchTranscript_fresh cfg fd il hc]
  unfold fetchFresh
  rw [hyt]
  simp only [Bool.false_eq_true, if_false]
  unfold fetchViaApi
  rcases hfail with h | h | h <;> rw [h] <;> simp [hyt, htool]

/-- Claim C2 witness: the amended fallback property at a concrete
disabled-transcripts video whose caption-tool attempt succeeds. -/
theorem c2_fallback_amended_witness :
    (fetchTranscript ⟨false, false, ["ja"], false⟩
        ⟨none, none, .disabled, some ([⟨0, 1, "hi"⟩], "hi", "ja")⟩ none).result
      = some ([⟨0, 1, "hi"⟩], "hi", "ja")
    ∧ 1 ≤ (fetchTranscript ⟨false, false, ["ja"], false⟩
        ⟨none, none, .disabled, some ([⟨0, 1, "hi"⟩], "hi", "ja")⟩ none).ytdlpAttempts :=
  c2_fallback_amended ⟨false, false, ["ja"], false⟩
    ⟨none, none, .disabled, some ([⟨0, 1, "hi"⟩], "hi", "ja")⟩ none
    ([⟨0, 1, "hi"⟩], "hi", "ja") (Or.inl rfl) rfl (Or.inl rfl) rfl

/-- Claim C1 (confirmed): with force unset and both transcript artifacts
present, fetch_transcript returns the cached segments and text verbatim
with the previously recorded language (or unknown when none or empty was
recorded) and performs zero network and zero subprocess calls; likewise
generate_summary returns the cached record with zero AI calls when both
summary artifacts are present; and a successful first acquisition writes
exactly what it returned, so the second run is byte-identical to the
first. -/
theorem c1_acquisition_idempotent
    (cfg cfg2 : Config) (fd : FetchData) (il : Option String)
    (segs : List Segment) (txt : String)
    (scfg : SumCfg) (sd : SumData) (sil : Option String) (svid stext : String) (sm : Meta)
    (cached : SummaryResult) (md : String)
    (h1 : fd.cacheJson = some segs) (h2 : fd.cacheTxt = some txt) (h3 : cfg.force = false)
    (h4 : sd.cacheJson = some cached) (h5 : sd.cacheMd = some md) (h6 : scfg.force = false) :
    fetchTranscript cfg fd il = ⟨some (segs, txt, cachedLang il), 0, 0, none, none⟩
    ∧ generateSummary scfg sd sil svid stext sm = some ⟨some cached, 0, none⟩
    ∧ ∀ (fd0 : FetchData) (il0 : Option String) (s : List Segment) (t lang : String),
        fd0.cacheJson = none →
        (fetchTranscript cfg2 fd0 il0).result = some (s, t, lang) →
        (fetchTranscript cfg2 fd0 il0).savedJson = some s
        ∧ (fetchTranscript cfg2 fd0 il0).savedTxt = some t
        ∧ fetchTranscript { cfg2 with force := false }
            { fd0 with cacheJson := some s, cacheTxt := some t } (some lang)
          = ⟨some (s, t, cachedLang (some lang)), 0, 0, none, none⟩ := by
  refine ⟨?_, ?_, ?_⟩
  · unfold fetchTranscript
    rw [h1, h2, h3]
  · unfold generateSummary
    rw [h4, h5, h6]
  · intro fd0 il0 s t lang h0 hres
    have hfr : fetchTranscript cfg2 fd0 il0 = fetchFresh cfg2 fd0 :=
      fetchTranscript_fresh cfg2 fd0 il0 (Or.inl h0)
    rw [hfr] at hres ⊢
    obtain ⟨hsj, hst⟩ := fetchFresh_saves cfg2 fd0 s t lang hres
    exact ⟨hsj, hst, rfl⟩

/-- Concrete cached-transcript environment for the C1 witness. -/
def c1fd : FetchData := ⟨some [⟨0, 2, "hello"⟩], some "hello", .ok [], none⟩

/-- Concrete cached summary record for the C1 witness. -/
def c1sum : SummaryResult := ⟨"v", "t", "u", "p", "ja", "s", [], [], [], 5⟩

/-- Concrete summary environment for the C1 witness. -/
def c1sd : SumData := ⟨some c1sum, some "md", fun _ _ => none, fun _ _ => none⟩

/-- Claim C1 witness: the idempotence property at a concrete cached video
(both cache branches taken with zero calls, and the recorded language
returned). -/
theorem c1_acquisition_idempotent_witness :
    fetchTranscript ⟨false, false, ["ja"], false⟩ c1fd (some "ja")
      = ⟨some ([⟨0, 2, "hello"⟩], "hello", cachedLang (some "ja")), 0, 0, none, none⟩
    ∧ generateSummary ⟨false, 6000, 300⟩ c1sd none "v" "text" ⟨"", "", ""⟩
      = some ⟨some c1sum, 0, none⟩
    ∧ cachedLang (some "ja") = "ja"
    ∧ cachedLang none = "unknown" :=
  ⟨(c1_acquisition_idempotent ⟨false, false, ["ja"], false⟩ ⟨false, false, ["ja"], false⟩
      c1fd (some "ja") [⟨0, 2, "hello"⟩] "hello" ⟨false, 6000, 300⟩ c1sd none "v" "text"
      ⟨"", "", ""⟩ c1sum "md" rfl rfl rfl rfl rfl rfl).1,
   (c1_acquisition_idempotent ⟨false, false, ["ja"], false⟩ ⟨false, false, ["ja"], false⟩
      c1fd (some "ja") [⟨0, 2, "hello"⟩] "hello" ⟨false, 6000, 300⟩ c1sd none "v" "text"
      ⟨"", "", ""⟩ c1sum "md" rfl rfl rfl rfl rfl rfl).2.1,
   rfl, rfl⟩

/-- Claim C5 (confirmed): the primary-API track selection implements
exactly the three-step priority policy — manual track by preference order,
then auto-generated by preference order, then first-track translation to
Japanese labeled ja (translated) — and when no step yields a track the
primary source fails, surfacing no acquisition result (given the cache
was not hit and the caption tool either was not configured primary or
already failed). -/
theorem c5_selection_priority (cfg : Config) (fd : FetchData) (il : Option String)
    (tracks : List Track)
    (hc : fd.cacheJson = none ∨ fd.cacheTxt = none ∨ cfg.force = true)
    (hyt : cfg.useYtdlp = true → fd.ytdlp = none)
    (hapi : fd.api = .ok tracks) :
    selectTranscript cfg.languages tracks = specTrackSelection cfg.languages tracks
    ∧ (selectTranscript cfg.languages tracks = none →
        (fetchTranscript cfg fd il).result = none) := by
  refine ⟨selectTranscript_eq_spec cfg.languages tracks, ?_⟩
  intro hsel
  rw [fetchTranscript_fresh cfg fd il hc]
  unfold fetchFresh
  cases hu : cfg.useYtdlp with
  | true =>
    rw [hyt hu]
    rw [if_pos rfl]
    unfold fetchViaApi
    rw [hapi]
    simp only []
    rw [hsel]
  | false =>
    rw [if_neg (by decide)]
    unfold fetchViaApi
    rw [hapi]
    simp only []
    rw [hsel]

/-- Claim C5 witness: the selection property at a concrete preference
list and an empty track list, where all three steps fail and the primary
source surfaces no result. -/
theorem c5_selection_priority_witness :
    selectTranscript ["ja", "en"] [] = specTrackSelection ["ja", "en"] []
    ∧ (selectTranscript ["ja", "en"] [] = none →
        (fetchTranscript ⟨false, false, ["ja", "en"], false⟩
          ⟨none, none, .ok [], none⟩ none).result = none) :=
  c5_selection_priority ⟨false, false, ["ja", "en"], false⟩ ⟨none, none, .ok [], none⟩
    none [] (Or.inl rfl) (fun _ => rfl) rfl

/-- Claim C3 (confirmed): for every input list the batch processes all
items — an exception in one item marks that item ERROR with the message
recorded and the loop continues to the next item — and after every item
(success or failure) the full index is persisted: the i-th snapshot is
exactly the index after the first i+1 items, and contains a row for the
item just processed. (The positive-chunk-step hypothesis excludes the
degenerate configuration whose chunking loop never returns.) -/
theorem c3_batch_resilience (cfg : Config) (scfg : SumCfg) (env : String → ItemEnv)
    (items : List (String × Meta)) (idx0 : Index)
    (hchunk : scfg.chunkOverlap < scfg.chunkChars) :
    ∃ steps fin, runBatch cfg scfg env items idx0 = some (steps, fin)
      ∧ steps.length = items.length
      ∧ ∀ i vid m, items.get? i = some (vid, m) →
          ∃ st, steps.get? i = some st
            ∧ st.vid = vid
            ∧ (idxLookup st.save vid).isSome = true
            ∧ runBatch cfg scfg env (items.take (i + 1)) idx0
                = some (steps.take (i + 1), st.save)
            ∧ (∀ msg, (env vid).fetchRaise = some msg →
                ∃ r, idxLookup st.save vid = some r ∧ r.status = "ERROR" ∧ r.error = msg)
            ∧ (∀ msg, (env vid).fetchRaise = none → (env vid).sumRaise = some msg →
                ∃ r, idxLookup st.save vid = some r
                  ∧ ((r.status = "ERROR" ∧ r.error = msg)
                      ∨ r.status = "TRANSCRIPT_UNAVAILABLE")) := by
  obtain ⟨steps, fin, hrun, hlen, hspec⟩ := runBatch_spec cfg scfg env hchunk items idx0
  refine ⟨steps, fin, hrun, hlen, ?_⟩
  intro i vid m hi
  obtain ⟨st, idxB, out, hA, hB, hC, hD, _hE, _hF, _hG, hH⟩ := hspec i vid m hi
  have hlook : idxLookup st.save vid = some out.1 := by
    rw [hD]
    exact idxLookup_idxSet_self idxB vid out.1
  obtain ⟨hraise, hsraise⟩ := processItem_spec cfg scfg (env vid) idxB vid m out hB
  refine ⟨st, hA, hC, by rw [hlook]; rfl, hH, ?_, ?_⟩
  · intro msg hmsg
    exact ⟨out.1, hlook, hraise msg hmsg⟩
  · intro msg hf hmsg
    exact ⟨out.1, hlook, hsraise msg hf hmsg⟩

/-- The item environment of the C3 witness: the first item raises from
the fetch stage, the second finds no transcript anywhere. -/
def c3env (vid : String) : ItemEnv :=
  if vid = "v1" then
    ⟨some "boom", ⟨none, none, .disabled, none⟩, none,
      ⟨none, none, fun _ _ => none, fun _ _ => none⟩⟩
  else
    ⟨none, ⟨none, none, .disabled, none⟩, none,
      ⟨none, none, fun _ _ => none, fun _ _ => none⟩⟩

/-- Claim C3 witness: the batch-resilience property on a concrete
two-item batch whose first item raises; both items get processed and two
snapshots are persisted. -/
theorem c3_batch_resilience_witness :
    (300 : Int) < 6000
    ∧ ∃ steps fin,
        runBatch ⟨false, false, ["ja"], false⟩ ⟨false, 6000, 300⟩ c3env
          [("v1", ⟨"", "", ""⟩), ("v2", ⟨"", "", ""⟩)] [] = some (steps, fin)
        ∧ steps.length = 2 := by
  refine ⟨by norm_num, ?_⟩
  obtain ⟨steps, fin, hrun, hlen, _⟩ :=
    c3_batch_resilience ⟨false, false, ["ja"], false⟩ ⟨false, 6000, 300⟩ c3env
      [("v1", ⟨"", "", ""⟩), ("v2", ⟨"", "", ""⟩)] [] (by norm_num)
  exact ⟨steps, fin, hrun, by simpa using hlen⟩

/-- The terminal-state index of the C4 counterexample. -/
def c4idx : Index :=
  [("v1", ⟨"v1", "", "", "", "", 0, 0, "TRANSCRIPT_UNAVAILABLE", "Failed to fetch transcript"⟩)]

/-- The item environment of the C4 counterexample: no cached artifacts,
transcripts disabled, caption tool failing. -/
def c4env : ItemEnv :=
  ⟨none, ⟨none, none, .disabled, none⟩, none,
    ⟨none, none, fun _ _ => none, fun _ _ => none⟩⟩

/-- Claim C4 counterexample: a video whose index record is in the
terminal state TRANSCRIPT_UNAVAILABLE is still subjected to renewed
transcript acquisition when the batch runs again without force: the rerun
performs one transcript-API call and one caption-tool attempt for it. -/
theorem c4_terminal_reprocessed_counterexample :
    (idxLookup c4idx "v1").map (fun r => r.status) = some "TRANSCRIPT_UNAVAILABLE"
    ∧ ((runBatch ⟨false, false, ["ja"], false⟩ ⟨false, 6000, 300⟩ (fun _ => c4env)
          [("v1", ⟨"", "", ""⟩)] c4idx).map
        fun p => p.1.map fun st => (st.apiCalls, st.ytdlpAttempts))
      = some [(1, 1)]
    ∧ (1, 1) ≠ (0, 0) := ⟨rfl, rfl, by decide⟩

/-- Claim C4 (corrected): the batch does not consult the index status at
all — every listed item is run through the pipeline again — and what
prevents renewed expensive work without force is artifact-file existence:
an item with both transcript artifacts and both summary artifacts on disk
incurs zero transcript-API calls, zero caption-tool attempts and zero AI
calls on a rerun, whatever its record status; and the dry-run classifier
likewise marks an id EXISTS exactly when it has any index record and
force is unset, regardless of the record status. -/
theorem c4_cache_gating_amended (cfg : Config) (scfg : SumCfg) (env : String → ItemEnv)
    (items : List (String × Meta)) (idx0 : Index) (i : Nat) (vid : String) (m : Meta)
    (hchunk : scfg.chunkOverlap < scfg.chunkChars)
    (hi : items.get? i = some (vid, m))
    (hforce : cfg.force = false) (hsforce : scfg.force = false)
    (h1 : (env vid).fetch.cacheJson.isSome = true) (h2 : (env vid).fetch.cacheTxt.isSome = true)
    (h3 : (env vid).sum.cacheJson.isSome = true) (h4 : (env vid).sum.cacheMd.isSome = true) :
    (∃ steps fin st, runBatch cfg scfg env items idx0 = some (steps, fin)
      ∧ steps.get? i = some st
      ∧ st.apiCalls = 0 ∧ st.ytdlpAttempts = 0 ∧ st.aiCalls = 0)
    ∧ ∀ (idx : Index) (f : Bool) (v : String),
        dryRunStatus idx f v = "EXISTS" ↔ (idxLookup idx v).isSome = true ∧ f = false := by
  constructor
  · obtain ⟨steps, fin, hrun, hlen, hspec⟩ := runBatch_spec cfg scfg env hchunk items idx0
    obtain ⟨st, idxB, out, hA, hB, _hC, _hD, hE, hF, hG, _hH⟩ := hspec i vid m hi
    obtain ⟨rec, hrec⟩ :=
      processItem_cached cfg scfg (env vid) idxB vid m hforce hsforce h1 h2 h3 h4
    rw [hrec] at hB
    cases hB
    exact ⟨steps, fin, st, hrun, hA, hE, hF, hG⟩
  · intro idx f v
    unfold dryRunStatus
    by_cases h : ((idxLookup idx v).isSome && !f) = true
    · rw [if_pos h]
      simp only [Bool.and_eq_true, Bool.not_eq_true'] at h
      simp [h]
    · rw [if_neg h]
      simp only [Bool.and_eq_true, Bool.not_eq_true'] at h
      constructor
      · intro hx
        exact absurd hx (by decide)
      · rintro ⟨ha, hb⟩
        exact absurd ⟨ha, hb⟩ h

/-- The cached summary record of the C4 witness environment. -/
def c4sum : SummaryResult := ⟨"v1", "t", "u", "p", "ja", "s", [], [], [], 5⟩

/-- The fully cached item environment of the C4 witness. -/
def c4cachedEnv : ItemEnv :=
  ⟨none, ⟨some [⟨0, 1, "x"⟩], some "x", .disabled, none⟩, none,
    ⟨some c4sum, some "md", fun _ _ => none, fun _ _ => none⟩⟩

/-- Claim C4 witness: the amended gating property on a concrete one-item
rerun with all four artifacts cached, and the dry-run classifier on a
concrete id without a record. -/
theorem c4_cache_gating_amended_witness :
    (∃ steps fin st,
        runBatch ⟨false, false, ["ja"], false⟩ ⟨false, 6000, 300⟩ (fun _ => c4cachedEnv)
          [("v1", ⟨"", "", ""⟩)] [] = some (steps, fin)
        ∧ steps.get? 0 = some st
        ∧ st.apiCalls = 0 ∧ st.ytdlpAttempts = 0 ∧ st.aiCalls = 0)
    ∧ (dryRunStatus [] false "v1" = "EXISTS" ↔ (idxLookup [] "v1").isSome = true ∧ false = false) :=
  ⟨(c4_cache_gating_amended ⟨false, false, ["ja"], false⟩ ⟨false, 6000, 300⟩
      (fun _ => c4cachedEnv) [("v1", ⟨"", "", ""⟩)] [] 0 "v1" ⟨"", "", ""⟩
      (by norm_num) rfl rfl rfl rfl rfl rfl rfl).1,
   (c4_cache_gating_amended ⟨false, false, ["ja"], false⟩ ⟨false, 6000, 300⟩
      (fun _ => c4cachedEnv) [("v1", ⟨"", "", ""⟩)] [] 0 "v1" ⟨"", "", ""⟩
      (by norm_num) rfl rfl rfl rfl rfl rfl rfl).2 [] false "v1"⟩

end TubeRecap
